import Mathlib

/-!
Shallow embedding of the mijies/rust_browser rendering core
(src/css.rs, src/dom.rs, src/style.rs, src/layout.rs, src/painter.rs).

Rust `f64` pixel quantities are modelled as exact rationals (ℚ); every
arithmetic operation the embedded code paths perform is +, -, *, and
comparison, so the rational model coincides with f64 on the integer-valued
inputs used by the witnesses.  Rust `HashMap`s that are only read through
`get` are modelled as lookup functions; `panic!` paths are modelled with
`Option`.  Field and function names follow the source, except `class`
(a Lean keyword), rendered as `cls`.
-/

namespace Browser

/-! ### css.rs -/

structure Color where
  r : Nat
  b : Nat
  g : Nat
  a : Nat
deriving DecidableEq, Repr

inductive Unit' where
  | px
deriving DecidableEq, Repr

inductive Value where
  | keyword : String → Value
  | length : ℚ → Unit' → Value
  | color : Color → Value
deriving DecidableEq, Repr

/-- `Value::to_px`: a `Length(f, Px)` is `f` pixels, anything else is 0. -/
def Value.to_px : Value → ℚ
  | .length f .px => f
  | _ => 0

structure SimpleSelector where
  tag_name : Option String
  id : Option String
  cls : List String
deriving DecidableEq, Repr

inductive Selector where
  | simple : SimpleSelector → Selector
deriving DecidableEq, Repr

structure Declaration where
  name : String
  value : Value
deriving DecidableEq, Repr

structure Rule where
  selectors : List Selector
  declarations : List Declaration
deriving DecidableEq, Repr

structure Stylesheet where
  rules : List Rule
deriving DecidableEq, Repr

abbrev Specificity := Nat × Nat × Nat

/-- `Selector::specificity`: (id count, class count, tag count). -/
def Selector.specificity : Selector → Specificity
  | .simple s => (s.id.toList.length, s.cls.length, s.tag_name.toList.length)

/-! ### dom.rs -/

abbrev AttrMap := String → Option String

structure ElementData where
  tag_name : String
  attrs : AttrMap

inductive NodeType where
  | element : ElementData → NodeType
  | text : String → NodeType

inductive Node where
  | mk : NodeType → List Node → Node

def Node.data : Node → NodeType
  | .mk d _ => d

def Node.children : Node → List Node
  | .mk _ cs => cs

/-- `ElementData::id`. -/
def ElementData.id (e : ElementData) : Option String := e.attrs "id"

/-- `ElementData::classes`: the class attribute split on the space
character (Rust `split(' ')`); absent attribute gives the empty set.
The `HashSet<&str>` is modelled as the token list, read only through
membership. -/
def ElementData.classes (e : ElementData) : List String :=
  match e.attrs "class" with
  | some classes => classes.split (· = ' ')
  | none => []

/-! ### style.rs -/

abbrev PropertyMap := String → Option Value

inductive StyledNode where
  | mk : Node → PropertyMap → List StyledNode → StyledNode

def StyledNode.node : StyledNode → Node
  | .mk n _ _ => n

def StyledNode.specified_values : StyledNode → PropertyMap
  | .mk _ m _ => m

def StyledNode.children : StyledNode → List StyledNode
  | .mk _ _ cs => cs

/-- `StyledNode::value`. -/
def StyledNode.value (s : StyledNode) (name : String) : Option Value :=
  s.specified_values name

/-- `StyledNode::lookup`: per-side property, then shorthand, then default. -/
def StyledNode.lookup (s : StyledNode) (name fallback_name : String)
    (default : Value) : Value :=
  match s.value name with
  | some v => v
  | none =>
    match s.value fallback_name with
    | some v => v
    | none => default

inductive Display where
  | inline
  | block
  | none
deriving DecidableEq, Repr

/-- `StyledNode::display`. -/
def StyledNode.display (s : StyledNode) : Display :=
  match s.value "display" with
  | some (.keyword kw) =>
    if kw = "block" then .block else if kw = "none" then .none else .inline
  | _ => .inline

/-! ### layout.rs: data model -/

structure Rect where
  x : ℚ
  y : ℚ
  width : ℚ
  height : ℚ
deriving DecidableEq, Repr

structure EdgeSizes where
  left : ℚ
  right : ℚ
  top : ℚ
  bottom : ℚ
deriving DecidableEq, Repr

structure Dimensions where
  content : Rect
  padding : EdgeSizes
  border : EdgeSizes
  margin : EdgeSizes
deriving DecidableEq, Repr

instance : Inhabited Rect := ⟨⟨0, 0, 0, 0⟩⟩
instance : Inhabited EdgeSizes := ⟨⟨0, 0, 0, 0⟩⟩
instance : Inhabited Dimensions := ⟨⟨default, default, default, default⟩⟩

/-- `Rect::expanded_by`.  The height line reproduces the source exactly:
it adds `edge.top * edge.bottom` (a product), not `edge.top + edge.bottom`. -/
def Rect.expanded_by (self : Rect) (edge : EdgeSizes) : Rect :=
  { x := self.x - edge.left
    y := self.y - edge.top
    width := self.width + edge.left + edge.right
    height := self.height + edge.top * edge.bottom }

def Dimensions.padding_box (d : Dimensions) : Rect :=
  d.content.expanded_by d.padding

def Dimensions.border_box (d : Dimensions) : Rect :=
  (d.padding_box).expanded_by d.border

def Dimensions.margin_box (d : Dimensions) : Rect :=
  (d.border_box).expanded_by d.margin

inductive BoxType where
  | blockNode : StyledNode → BoxType
  | inlineNode : StyledNode → BoxType
  | anonymousBlock : BoxType

inductive LayoutBox where
  | mk : Dimensions → BoxType → List LayoutBox → LayoutBox

def LayoutBox.dimensions : LayoutBox → Dimensions
  | .mk d _ _ => d

def LayoutBox.box_type : LayoutBox → BoxType
  | .mk _ bt _ => bt

def LayoutBox.children : LayoutBox → List LayoutBox
  | .mk _ _ cs => cs

/-- `LayoutBox::new`: default dimensions, no children. -/
def LayoutBox.new (box_type : BoxType) : LayoutBox :=
  .mk default box_type []

/-! ### layout.rs: block width -/

/-- `LayoutBox::consume_underflow`, with the mutable `(underflow, value)`
pair made explicit: returns (new underflow, new value). -/
def consume_underflow (underflow : ℚ) (value : Value) : ℚ × Value :=
  let flow := value.to_px + underflow
  if flow > 0 then (0, .length flow .px) else (flow, .length 0 .px)

/-- The seven width-related quantities `calculate_block_width` resolves,
still as `Value`s (they are converted with `to_px` when stored into the
box's dimensions, exactly as in the source). -/
structure WidthsResult where
  width : Value
  margin_left : Value
  margin_right : Value
  border_left : Value
  border_right : Value
  padding_left : Value
  padding_right : Value
deriving DecidableEq, Repr

/-- `LayoutBox::calculate_block_width`, with `self.get_style_node()`
passed explicitly (the caller `layout_block` always has a styled node). -/
def calculate_block_width (style : StyledNode) (containing_block : Dimensions) :
    WidthsResult :=
  let auto : Value := .keyword "auto"
  let zero : Value := .length 0 .px
  let width := (style.value "width").getD auto
  let margin_left := style.lookup "margin-left" "margin" zero
  let margin_right := style.lookup "margin-right" "margin" zero
  let border_left := style.lookup "border-left-width" "border-width" zero
  let border_right := style.lookup "border-right-width" "border-width" zero
  let padding_left := style.lookup "padding-left" "padding" zero
  let padding_right := style.lookup "padding-right" "padding" zero
  let total : ℚ := margin_right.to_px + border_right.to_px + padding_right.to_px
    + padding_left.to_px + border_left.to_px + margin_left.to_px + width.to_px
  let underflow := containing_block.content.width - total
  if underflow < 0 then
    let width : Value := .length width.to_px .px
    let margin_left : Value := .length margin_left.to_px .px
    let margin_right : Value := .length margin_right.to_px .px
    let border_left : Value := .length border_left.to_px .px
    let border_right : Value := .length border_right.to_px .px
    let padding_left : Value := .length padding_left.to_px .px
    let padding_right : Value := .length padding_right.to_px .px
    let s1 := consume_underflow underflow margin_right
    let s2 := consume_underflow s1.1 border_right
    let s3 := consume_underflow s2.1 padding_right
    let s4 := consume_underflow s3.1 padding_left
    let s5 := consume_underflow s4.1 border_left
    let s6 := consume_underflow s5.1 margin_left
    let s7 := consume_underflow s6.1 width
    ⟨s7.2, s6.2, s1.2, s5.2, s2.2, s4.2, s3.2⟩
  else
    if width = auto then
      let width : Value := .length underflow .px
      let margin_left : Value := .length margin_left.to_px .px
      let margin_right : Value := .length margin_right.to_px .px
      let border_left : Value := .length border_left.to_px .px
      let border_right : Value := .length border_right.to_px .px
      let padding_left : Value := .length padding_left.to_px .px
      let padding_right : Value := .length padding_right.to_px .px
      ⟨width, margin_left, margin_right, border_left, border_right,
        padding_left, padding_right⟩
    else
      let margin_right : Value := .length (margin_right.to_px + underflow) .px
      ⟨width, margin_left, margin_right, border_left, border_right,
        padding_left, padding_right⟩

/-! ### style.rs: selector matching and cascade -/

/-- `match_simple_selector`, with the three early-return checks. -/
def match_simple_selector (elem : ElementData) (simple_selector : SimpleSelector) :
    Bool :=
  if simple_selector.tag_name.any (fun name => elem.tag_name != name) then false
  else if simple_selector.id.any (fun i => elem.id != some i) then false
  else if simple_selector.cls.any (fun c => !(elem.classes.contains c)) then false
  else true

/-- `matches` (renamed: `matches` is reserved in Lean). -/
def selector_matches (elem : ElementData) (selector : Selector) : Bool :=
  match selector with
  | .simple simple_selector => match_simple_selector elem simple_selector

/-- `match_rule`: the first matching selector (in the rule's stored
order) gives the rule's specificity. -/
def match_rule (elem : ElementData) (rule : Rule) : Option (Specificity × Rule) :=
  (rule.selectors.find? (fun selector => selector_matches elem selector)).map
    (fun selector => (selector.specificity, rule))

/-- `matching_rules`. -/
def matching_rules (elem : ElementData) (stylesheet : Stylesheet) :
    List (Specificity × Rule) :=
  stylesheet.rules.filterMap (match_rule elem)

/-- Rust's derived lexicographic `Ord` on the `(usize, usize, usize)`
specificity tuple. -/
def specificityCmp (x y : Specificity) : Ordering :=
  (compare x.1 y.1).then ((compare x.2.1 y.2.1).then (compare x.2.2 y.2.2))

/-- One step of a stable insertion sort: `x` goes after every already
placed element `y` with `cmp y x ≠ gt`. -/
def insertStable (cmp : α → α → Ordering) (x : α) : List α → List α
  | [] => [x]
  | y :: ys =>
    if cmp y x ≠ Ordering.gt then y :: insertStable cmp x ys else x :: y :: ys

/-- Stable ascending sort, modelling Rust's stable `sort_by`: equal
elements keep their original relative order. -/
def sortStable (cmp : α → α → Ordering) (l : List α) : List α :=
  l.foldl (fun acc x => insertStable cmp x acc) []

/-- The declaration loop of `specified_values`: each declaration is
inserted into the property-name-keyed map, overwriting. -/
def applyDeclarations (values : PropertyMap) : List Declaration → PropertyMap
  | [] => values
  | d :: rest =>
    applyDeclarations (fun name => if name = d.name then some d.value else values name)
      rest

/-- `specified_values`: sort the matching rules by ascending specificity
(stably) and apply their declarations in that order. -/
def specified_values (elem : ElementData) (stylesheet : Stylesheet) : PropertyMap :=
  let rules := sortStable (fun x y => specificityCmp x.1 y.1)
    (matching_rules elem stylesheet)
  rules.foldl (fun values sr => applyDeclarations values sr.2.declarations)
    (fun _ => none)

/-! ### layout.rs: tree construction -/

/-- Rust `children.push(c)`. -/
def LayoutBox.pushChild (b : LayoutBox) (c : LayoutBox) : LayoutBox :=
  .mk b.dimensions b.box_type (b.children ++ [c])

/-- `get_inline_container` fused with the single call site's
`children.push(child)`: on an Inline or AnonymousBlock box the child is
pushed directly; on a Block box it is pushed into a trailing
AnonymousBlock child, reused when present and freshly appended otherwise. -/
def LayoutBox.push_to_inline_container (self : LayoutBox) (child : LayoutBox) :
    LayoutBox :=
  match self.box_type with
  | .inlineNode _ | .anonymousBlock => self.pushChild child
  | .blockNode _ =>
    match self.children.getLast? with
    | some (.mk d .anonymousBlock cs) =>
      .mk self.dimensions self.box_type
        (self.children.dropLast ++ [LayoutBox.mk d .anonymousBlock (cs ++ [child])])
    | _ => self.pushChild (LayoutBox.mk default .anonymousBlock [child])

mutual

/-- `make_layout_tree`; `none` models the `panic!` on a display:none root. -/
def make_layout_tree : StyledNode → Option LayoutBox
  | node@(.mk _ _ cs) =>
    match node.display with
    | .none => none
    | .block => make_children (LayoutBox.new (.blockNode node)) cs
    | .inline => make_children (LayoutBox.new (.inlineNode node)) cs

/-- The child loop of `make_layout_tree`: block children are pushed
directly, inline children go through the inline container, display:none
children are skipped. -/
def make_children (root : LayoutBox) : List StyledNode → Option LayoutBox
  | [] => some root
  | child :: rest =>
    match child.display with
    | .block =>
      match make_layout_tree child with
      | none => none
      | some cb => make_children (root.pushChild cb) rest
    | .inline =>
      match make_layout_tree child with
      | none => none
      | some cb => make_children (root.push_to_inline_container cb) rest
    | .none => make_children root rest

end

/-! ### layout.rs: geometry solve -/

/-- `LayoutBox::calculate_block_position` (styled node and mutable
dimensions made explicit). -/
def calculate_block_position (style : StyledNode) (d : Dimensions)
    (containing_block : Dimensions) : Dimensions :=
  let zero : Value := .length 0 .px
  let d := { d with
    margin := { d.margin with
      top := (style.lookup "margin-top" "margin" zero).to_px
      bottom := (style.lookup "margin-bottom" "margin" zero).to_px }
    border := { d.border with
      top := (style.lookup "border-top-width" "border-width" zero).to_px
      bottom := (style.lookup "border-bottom-width" "border-width" zero).to_px }
    padding := { d.padding with
      top := (style.lookup "padding-top" "padding" zero).to_px
      bottom := (style.lookup "padding-bottom" "padding" zero).to_px } }
  { d with content := { d.content with
      x := containing_block.content.x + d.margin.left + d.border.left + d.padding.left
      y := containing_block.content.height + containing_block.content.y
        + d.margin.top + d.border.top + d.padding.top } }

/-- `LayoutBox::calculate_inline_position`: margins on all four sides,
border and padding on top/bottom only; same x/y formula as blocks. -/
def calculate_inline_position (style : StyledNode) (d : Dimensions)
    (containing_block : Dimensions) : Dimensions :=
  let zero : Value := .length 0 .px
  let d := { d with
    margin := { left := (style.lookup "margin-left" "margin" zero).to_px
                right := (style.lookup "margin-right" "margin" zero).to_px
                top := (style.lookup "margin-top" "margin" zero).to_px
                bottom := (style.lookup "margin-bottom" "margin" zero).to_px }
    border := { d.border with
      top := (style.lookup "border-top-width" "border-width" zero).to_px
      bottom := (style.lookup "border-bottom-width" "border-width" zero).to_px }
    padding := { d.padding with
      top := (style.lookup "padding-top" "padding" zero).to_px
      bottom := (style.lookup "padding-bottom" "padding" zero).to_px } }
  { d with content := { d.content with
      x := containing_block.content.x + d.margin.left + d.border.left + d.padding.left
      y := containing_block.content.height + containing_block.content.y
        + d.margin.top + d.border.top + d.padding.top } }

/-- `LayoutBox::calculate_block_height`: an explicit pixel `height`
overrides the accumulated children height. -/
def calculate_block_height (style : StyledNode) (d : Dimensions) : Dimensions :=
  match style.value "height" with
  | some (.length h .px) => { d with content := { d.content with height := h } }
  | _ => d

mutual

/-- `LayoutBox::layout`, with the bodies of `layout_block` and
`layout_inline` inlined into the corresponding match arms (the source
dispatches on `box_type` exactly like this; inlining keeps the mutual
recursion structural). -/
def layout (self : LayoutBox) (containing_block : Dimensions) : LayoutBox :=
  match self with
  | .mk d (.blockNode style) cs =>
    -- `layout_block`: width, position, children, height
    let w := calculate_block_width style containing_block
    let d := { d with
      content := { d.content with width := w.width.to_px }
      margin := { d.margin with left := w.margin_left.to_px, right := w.margin_right.to_px }
      border := { d.border with left := w.border_left.to_px, right := w.border_right.to_px }
      padding := { d.padding with left := w.padding_left.to_px, right := w.padding_right.to_px } }
    let d := calculate_block_position style d containing_block
    let r := block_children_loop d cs
    let d := calculate_block_height style r.1
    .mk d (.blockNode style) r.2
  | .mk d (.inlineNode style) cs =>
    -- `layout_inline`: position, children, then the text-node override
    -- (Rust `body.len()` is the UTF-8 byte length)
    let d := calculate_inline_position style d containing_block
    let r := inline_children_loop d cs
    let d := match style.node.data with
      | .element _ => r.1
      | .text body => { r.1 with content := { r.1.content with
          width := (body.utf8ByteSize : ℚ) * 8, height := 16 } }
    .mk d (.inlineNode style) r.2
  | .mk d .anonymousBlock cs =>
    let r := anonymous_children_loop d cs containing_block
    .mk r.1 .anonymousBlock r.2

/-- `layout_block_children`: each child laid out against this box's
evolving dimensions; content height accumulates margin-box heights. -/
def block_children_loop (d : Dimensions) (cs : List LayoutBox) :
    Dimensions × List LayoutBox :=
  match cs with
  | [] => (d, [])
  | c :: rest =>
    let c := layout c d
    let d := { d with content := { d.content with
      height := d.content.height + c.dimensions.margin_box.height } }
    let r := block_children_loop d rest
    (r.1, c :: r.2)

/-- `layout_inline_children`: width overwritten with each child's
margin-box width, height accumulates margin-box heights. -/
def inline_children_loop (d : Dimensions) (cs : List LayoutBox) :
    Dimensions × List LayoutBox :=
  match cs with
  | [] => (d, [])
  | c :: rest =>
    let c := layout c d
    let d := { d with content := { d.content with
      width := c.dimensions.margin_box.width } }
    let d := { d with content := { d.content with
      height := d.content.height + c.dimensions.margin_box.height } }
    let r := inline_children_loop d rest
    (r.1, c :: r.2)

/-- The `AnonymousBlock` arm of `layout`: children are laid out against
the box's containing block; width is overwritten with each child's
margin-box width, height accumulates margin-box heights. -/
def anonymous_children_loop (d : Dimensions) (cs : List LayoutBox)
    (containing_block : Dimensions) : Dimensions × List LayoutBox :=
  match cs with
  | [] => (d, [])
  | c :: rest =>
    let c := layout c containing_block
    let d := { d with content := { d.content with
      width := c.dimensions.margin_box.width } }
    let d := { d with content := { d.content with
      height := d.content.height + c.dimensions.margin_box.height } }
    let r := anonymous_children_loop d rest containing_block
    (r.1, c :: r.2)

end

/-- `layout_tree`: zero the containing block's content height, build the
layout tree, solve it. -/
def layout_tree (node : StyledNode) (containing_block : Dimensions) :
    Option LayoutBox :=
  let containing_block := { containing_block with
    content := { containing_block.content with height := 0 } }
  match make_layout_tree node with
  | none => none
  | some root_box => some (layout root_box containing_block)

/-! ### painter.rs -/

/-- `StyledNode::get_color`. -/
def StyledNode.get_color (s : StyledNode) (name : String) : Option Color :=
  match s.value name with
  | some (.color color) => some color
  | _ => none

inductive DisplayCommand where
  | solidColor : Color → Rect → DisplayCommand
  | text : String → Rect → DisplayCommand
deriving DecidableEq, Repr

abbrev DisplayList := List DisplayCommand

/-- `get_color` (painter.rs): anonymous boxes have no style, hence no color. -/
def get_color (layout_box : LayoutBox) (name : String) : Option Color :=
  match layout_box.box_type with
  | .blockNode style | .inlineNode style => style.get_color name
  | .anonymousBlock => none

/-- `render_text`: a Text command at the border box for a text-leaf
styled node (the mutable list is passed and returned). -/
def render_text (list : DisplayList) (layout_box : LayoutBox) : DisplayList :=
  match layout_box.box_type with
  | .blockNode style | .inlineNode style =>
    match style.node.data with
    | .text content => list ++ [.text content layout_box.dimensions.border_box]
    | .element _ => list
  | .anonymousBlock => list

/-- `render_background`: a SolidColor command covering the border box when
"background" is a color. -/
def render_background (list : DisplayList) (layout_box : LayoutBox) : DisplayList :=
  match get_color layout_box "background" with
  | some color => list ++ [.solidColor color layout_box.dimensions.border_box]
  | none => list

/-- `render_border`: four SolidColor commands (left, right, top, bottom)
when "border-color" is a color. -/
def render_border (list : DisplayList) (layout_box : LayoutBox) : DisplayList :=
  match get_color layout_box "border-color" with
  | none => list
  | some color =>
    let d := layout_box.dimensions
    let border_box := d.border_box
    list ++
      [.solidColor color
        { x := border_box.x, y := border_box.y
          width := d.border.left, height := border_box.height },
       .solidColor color
        { x := border_box.x + border_box.width - d.border.right, y := border_box.y
          width := d.border.right, height := border_box.height },
       .solidColor color
        { x := border_box.x, y := border_box.y
          width := border_box.width, height := d.border.top },
       .solidColor color
        { x := border_box.x, y := border_box.y + border_box.height - d.border.bottom
          width := border_box.width, height := d.border.bottom }]

mutual

/-- `render_layout_box_tree`: text, then background, then border, then
the children in order. -/
def render_layout_box_tree (list : DisplayList) (layout_box : LayoutBox) :
    DisplayList :=
  match layout_box with
  | lb@(.mk _ _ cs) =>
    render_children_loop (render_border (render_background (render_text list lb) lb) lb) cs

/-- The child loop of `render_layout_box_tree`. -/
def render_children_loop (list : DisplayList) (cs : List LayoutBox) : DisplayList :=
  match cs with
  | [] => list
  | c :: rest => render_children_loop (render_layout_box_tree list c) rest

end

/-! ### Spec-side definitions (written from the claim wording, for
comparison against the embedded source) -/

/-- Claim C1 wording: one absorption step.  The quantity consumes as much
of the (nonnegative) deficit as possible without going below 0 and the
remainder is passed onward: returns (resolved quantity, remaining deficit). -/
def absorbStep (q deficit : ℚ) : ℚ × ℚ :=
  (q - min q deficit, deficit - min q deficit)

/-- Claim C1 wording: absorb the deficit strictly in the order
margin-right, border-right, padding-right, padding-left, border-left,
margin-left, width.  Returns the seven resolved quantities in that order. -/
def absorbSevenSpec (deficit mr br pr pl bl ml w : ℚ) :
    ℚ × ℚ × ℚ × ℚ × ℚ × ℚ × ℚ :=
  let s1 := absorbStep mr deficit
  let s2 := absorbStep br s1.2
  let s3 := absorbStep pr s2.2
  let s4 := absorbStep pl s3.2
  let s5 := absorbStep bl s4.2
  let s6 := absorbStep ml s5.2
  let s7 := absorbStep w s6.2
  (s1.1, s2.1, s3.1, s4.1, s5.1, s6.1, s7.1)

/-- Claim C6 wording: the element's whitespace-tokenized class attribute
(the source tokenizes on the space character only). -/
def classesWhitespace (e : ElementData) : List String :=
  match e.attrs "class" with
  | some classes => classes.split (fun c => c.isWhitespace)
  | none => []

/-- Claim C3/C8 helper: the value of the last declaration of property `p`
in a declaration list. -/
def lastDeclValue (p : String) : List Declaration → Option Value
  | [] => none
  | d :: rest =>
    match lastDeclValue p rest with
    | some v => some v
    | none => if d.name = p then some d.value else none

/-- Sum of the margin-box heights of a list of layout boxes. -/
def marginHeightSum (cs : List LayoutBox) : ℚ :=
  (cs.map (fun c => c.dimensions.margin_box.height)).sum

/-- Claim C9 wording: the commands a single box contributes, in order —
a Text command for a text-leaf styled node, a background SolidColor, and
four border SolidColors (left, right, top, bottom), all positioned
relative to the border box. -/
def boxCommandsSpec (b : LayoutBox) : DisplayList :=
  (match b.box_type with
   | .blockNode style | .inlineNode style =>
     match style.node.data with
     | .text content => [DisplayCommand.text content b.dimensions.border_box]
     | .element _ => []
   | .anonymousBlock => []) ++
  (match get_color b "background" with
   | some color => [DisplayCommand.solidColor color b.dimensions.border_box]
   | none => []) ++
  (match get_color b "border-color" with
   | none => []
   | some color =>
     let d := b.dimensions
     let border_box := d.border_box
     [DisplayCommand.solidColor color
        { x := border_box.x, y := border_box.y
          width := d.border.left, height := border_box.height },
      DisplayCommand.solidColor color
        { x := border_box.x + border_box.width - d.border.right, y := border_box.y
          width := d.border.right, height := border_box.height },
      DisplayCommand.solidColor color
        { x := border_box.x, y := border_box.y
          width := border_box.width, height := d.border.top },
      DisplayCommand.solidColor color
        { x := border_box.x, y := border_box.y + border_box.height - d.border.bottom
          width := border_box.width, height := d.border.bottom }])

mutual

/-- Claim C9 wording: pre-order display list — each box's own commands,
then the display lists of its children in order. -/
def displayListSpec (b : LayoutBox) : DisplayList :=
  match b with
  | lb@(.mk _ _ cs) => boxCommandsSpec lb ++ displayListSpecChildren cs

/-- Concatenated display lists of a box list. -/
def displayListSpecChildren : List LayoutBox → DisplayList
  | [] => []
  | c :: rest => displayListSpec c ++ displayListSpecChildren rest

end

/-! ### Box-kind projections (for stating the structural claims) -/

inductive BoxKind where
  | block
  | inline
  | anon
deriving DecidableEq, Repr

def LayoutBox.kind : LayoutBox → BoxKind
  | .mk _ (.blockNode _) _ => .block
  | .mk _ (.inlineNode _) _ => .inline
  | .mk _ .anonymousBlock _ => .anon

/-- The kinds of a box's direct children, in order. -/
def LayoutBox.childKinds (b : LayoutBox) : List BoxKind :=
  b.children.map LayoutBox.kind

mutual

/-- The anonymous-block wrapping invariant of claim C5: no block box has
a bare inline box as a direct child, anywhere in the tree. -/
def noBareInline : LayoutBox → Bool
  | .mk _ bt cs =>
    (match bt with
     | .blockNode _ => cs.all (fun c => !(c.kind = BoxKind.inline))
     | _ => true) && noBareInlineList cs

def noBareInlineList : List LayoutBox → Bool
  | [] => true
  | c :: rest => noBareInline c && noBareInlineList rest

end

/-! ### Readable names for the seven width quantities of
`calculate_block_width` (definitionally the values the function reads) -/

/-- The specified width: the "width" property, defaulting to `auto`. -/
def specifiedWidth (style : StyledNode) : Value :=
  (style.value "width").getD (.keyword "auto")

/-- An edge quantity: per-side property, then shorthand, then zero length. -/
def edgeValue (style : StyledNode) (name fallback_name : String) : Value :=
  style.lookup name fallback_name (.length 0 .px)

/-- The sum of the seven pixel-converted width quantities, in the order
the source sums them. -/
def requestedTotal (style : StyledNode) : ℚ :=
  (edgeValue style "margin-right" "margin").to_px
    + (edgeValue style "border-right-width" "border-width").to_px
    + (edgeValue style "padding-right" "padding").to_px
    + (edgeValue style "padding-left" "padding").to_px
    + (edgeValue style "border-left-width" "border-width").to_px
    + (edgeValue style "margin-left" "margin").to_px
    + (specifiedWidth style).to_px

/-! ### Concrete fixtures for the witnesses and counterexamples -/

/-- An attribute map with no attributes. -/
def noAttrs : AttrMap := fun _ => none

/-- A property map from an association list (later conses shadow). -/
def propsOf (l : List (String × Value)) : PropertyMap :=
  fun name => (l.find? (fun p => p.1 = name)).map (fun p => p.2)

/-- A styled element node with the given properties and children. -/
def styledElem (props : List (String × Value)) (cs : List StyledNode) : StyledNode :=
  .mk (.mk (.element ⟨"div", noAttrs⟩) []) (propsOf props) cs

/-- A styled text node (text leaves get an empty property map). -/
def styledText (s : String) : StyledNode :=
  .mk (.mk (.text s) []) (fun _ => none) []

/-- A containing block with content width `w` (content at the origin). -/
def viewport (w : ℚ) : Dimensions :=
  { content := { x := 0, y := 0, width := w, height := 0 }
    padding := default, border := default, margin := default }

/-- C1 example: width:60px, margin-left:20px. -/
def c1Style : StyledNode :=
  styledElem [("width", .length 60 .px), ("margin-left", .length 20 .px)] []

/-- C4 example: width auto, margin-left:10px. -/
def c4Style : StyledNode :=
  styledElem [("margin-left", .length 10 .px)] []

/-- C5 example: a block parent with an inline, a block, and an inline child. -/
def c5Parent : StyledNode :=
  styledElem [("display", .keyword "block")]
    [styledText "a", styledElem [("display", .keyword "block")] [], styledText "b"]

/-- C6 counterexample element: class attribute with a tab separator. -/
def c6Elem : ElementData :=
  ⟨"p", fun k => if k = "class" then some "a\tb" else Option.none⟩

/-- C6 counterexample selector: requires class token "a" only. -/
def c6Sel : SimpleSelector := ⟨Option.none, Option.none, ["a"]⟩

/-- C6 witness element: tag p, id i, space-separated classes. -/
def c6Elem2 : ElementData :=
  ⟨"p", fun k => if k = "class" then some "a b" else if k = "id" then some "i"
    else Option.none⟩

/-- C8 example child: display:block with an explicit height. -/
def c8Child (h : ℚ) : StyledNode :=
  styledElem [("display", .keyword "block"), ("height", .length h .px)] []

/-- C8 example parent without an explicit height. -/
def c8ParentA : StyledNode :=
  styledElem [("display", .keyword "block")] [c8Child 20, c8Child 30]

/-- C8 example parent with height:15px. -/
def c8ParentB : StyledNode :=
  styledElem [("display", .keyword "block"), ("height", .length 15 .px)]
    [c8Child 20, c8Child 30]

/-- C8 example: the two children as unlaid-out boxes. -/
def c8BoxA : LayoutBox := LayoutBox.new (.blockNode (c8Child 20))

def c8BoxB : LayoutBox := LayoutBox.new (.blockNode (c8Child 30))

/-- C10 example: a block root with margin:5px (via the shorthand). -/
def c10Node : StyledNode :=
  styledElem [("display", .keyword "block"), ("margin", .length 5 .px)] []

/-- C10 witness: the laid-out root box for `c10Node`. -/
def c10Root : LayoutBox :=
  (layout_tree c10Node (viewport 100)).getD (LayoutBox.new .anonymousBlock)

/-- C5 witness: the laid-out root box for `c5Parent`. -/
def c5Root : LayoutBox :=
  (layout_tree c5Parent (viewport 200)).getD (LayoutBox.new .anonymousBlock)

/-- C3 fixtures: an element with class "hero". -/
def c3Elem : ElementData :=
  ⟨"div", fun k => if k = "class" then some "hero" else Option.none⟩

/-- C3: low-specificity rule (tag selector). -/
def c3RuleLow : Rule :=
  ⟨[.simple ⟨some "div", Option.none, []⟩], [⟨"color", .keyword "red"⟩]⟩

/-- C3: high-specificity rule (class selector). -/
def c3RuleHigh : Rule :=
  ⟨[.simple ⟨Option.none, Option.none, ["hero"]⟩], [⟨"color", .keyword "blue"⟩]⟩

/-- C3: a rule that does not match `c3Elem`. -/
def c3RuleOther : Rule :=
  ⟨[.simple ⟨some "span", Option.none, []⟩], [⟨"color", .keyword "green"⟩]⟩

/-- C3 stylesheet: the high-specificity rule comes FIRST in source order. -/
def c3Sheet : Stylesheet := ⟨[c3RuleHigh, c3RuleOther, c3RuleLow]⟩

/-! ## Theorems -/

/-! ### Mutual induction helpers for the nested tree types -/

theorem layoutBox_mutual_ind {motive1 : LayoutBox → Prop}
    {motive2 : List LayoutBox → Prop}
    (mk : ∀ d bt cs, motive2 cs → motive1 (.mk d bt cs))
    (nil : motive2 [])
    (cons : ∀ c rest, motive1 c → motive2 rest → motive2 (c :: rest)) :
    (∀ b, motive1 b) ∧ (∀ cs, motive2 cs) := by
  have hb : ∀ b, motive1 b := fun b => @LayoutBox.rec motive1 motive2 mk nil cons b
  exact ⟨hb, fun cs => List.rec nil (fun c rest ih => cons c rest (hb c) ih) cs⟩

theorem styledNode_mutual_ind {motive1 : StyledNode → Prop}
    {motive2 : List StyledNode → Prop}
    (mk : ∀ n m cs, motive2 cs → motive1 (.mk n m cs))
    (nil : motive2 [])
    (cons : ∀ c rest, motive1 c → motive2 rest → motive2 (c :: rest)) :
    (∀ s, motive1 s) ∧ (∀ cs, motive2 cs) := by
  have hs : ∀ s, motive1 s := fun s => @StyledNode.rec motive1 motive2 mk nil cons s
  exact ⟨hs, fun cs => List.rec nil (fun c rest ih => cons c rest (hs c) ih) cs⟩

/-! ### Accessor lemmas -/

@[simp] theorem LayoutBox.dimensions_mk (d : Dimensions) (bt : BoxType)
    (cs : List LayoutBox) : (LayoutBox.mk d bt cs).dimensions = d := rfl

@[simp] theorem LayoutBox.box_type_mk (d : Dimensions) (bt : BoxType)
    (cs : List LayoutBox) : (LayoutBox.mk d bt cs).box_type = bt := rfl

@[simp] theorem LayoutBox.children_mk (d : Dimensions) (bt : BoxType)
    (cs : List LayoutBox) : (LayoutBox.mk d bt cs).children = cs := rfl

/-! ### C2: edge-ring expansion (code bug: height uses a product) -/

/-- C2 (code bug): at the concrete rect (height 10) and edge ring
(top 2, bottom 3), `Rect::expanded_by` produces height 10 + 2·3 = 16,
not the additive 10 + 2 + 3 = 15 the claim states; x/y/width follow the
additive form. -/
theorem c2_expanded_by_height_product :
    Rect.expanded_by ⟨0, 0, 0, 10⟩ ⟨0, 0, 2, 3⟩ = ⟨0, -2, 0, 16⟩ ∧
    (Rect.expanded_by ⟨0, 0, 0, 10⟩ ⟨0, 0, 2, 3⟩).height ≠ 10 + 2 + 3 := by
  refine ⟨?_, ?_⟩ <;> with_unfolding_all decide

/-! ### C7: text-box metrics -/

/-- C7 (amended): a layout box over a text-leaf styled node gets content
width `byte count × 8` (Rust `String::len` counts UTF-8 bytes, not
characters) and content height 16, regardless of style properties or
children. -/
theorem c7_text_box_metrics (d : Dimensions) (style : StyledNode)
    (cs : List LayoutBox) (cb : Dimensions) (body : String)
    (h : style.node.data = .text body) :
    (layout (.mk d (.inlineNode style) cs) cb).dimensions.content.width
        = (body.utf8ByteSize : ℚ) * 8 ∧
    (layout (.mk d (.inlineNode style) cs) cb).dimensions.content.height = 16 := by
  simp only [layout, h, LayoutBox.dimensions_mk]
  exact ⟨trivial, trivial⟩

theorem c7_text_box_metrics_witness :
    (layout (.mk default (.inlineNode (styledText "hello")) [])
      (viewport 100)).dimensions.content.width
        = (String.utf8ByteSize "hello" : ℚ) * 8 ∧
    (layout (.mk default (.inlineNode (styledText "hello")) [])
      (viewport 100)).dimensions.content.height = 16 :=
  c7_text_box_metrics default (styledText "hello") [] (viewport 100) "hello" rfl

/-- C7 (counterexample to the claim as stated): for the two-byte,
one-character text "é" the computed width is 16, not
character count × 8 = 8. -/
theorem c7_char_count_counterexample :
    (layout (.mk default (.inlineNode (styledText "é")) [])
      (viewport 100)).dimensions.content.width
      ≠ (("é" : String).length : ℚ) * 8 := by with_unfolding_all decide

/-! ### C4: under-constrained width resolution -/

/-- C4: when the seven width quantities do not exceed the containing
width, an `auto` width absorbs the entire underflow (other quantities
materialize to pixels, auto → 0); a non-`auto` width leaves every
quantity unchanged except margin-right, which absorbs the entire
underflow. -/
theorem c4_underflow_nonneg (style : StyledNode) (cb : Dimensions)
    (h : requestedTotal style ≤ cb.content.width) :
    (specifiedWidth style = .keyword "auto" →
      calculate_block_width style cb =
        ⟨.length (cb.content.width - requestedTotal style) .px,
         .length (edgeValue style "margin-left" "margin").to_px .px,
         .length (edgeValue style "margin-right" "margin").to_px .px,
         .length (edgeValue style "border-left-width" "border-width").to_px .px,
         .length (edgeValue style "border-right-width" "border-width").to_px .px,
         .length (edgeValue style "padding-left" "padding").to_px .px,
         .length (edgeValue style "padding-right" "padding").to_px .px⟩) ∧
    (specifiedWidth style ≠ .keyword "auto" →
      calculate_block_width style cb =
        ⟨specifiedWidth style,
         edgeValue style "margin-left" "margin",
         .length ((edgeValue style "margin-right" "margin").to_px
           + (cb.content.width - requestedTotal style)) .px,
         edgeValue style "border-left-width" "border-width",
         edgeValue style "border-right-width" "border-width",
         edgeValue style "padding-left" "padding",
         edgeValue style "padding-right" "padding"⟩) := by
  have hnn : ¬ (cb.content.width - requestedTotal style < 0) :=
    not_lt.mpr (sub_nonneg.mpr h)
  constructor
  · intro hw
    show calculate_block_width style cb = _
    simp only [calculate_block_width]
    split_ifs with h1 h2
    · exact absurd h1 hnn
    · rfl
    · exact absurd hw h2
  · intro hw
    show calculate_block_width style cb = _
    simp only [calculate_block_width]
    split_ifs with h1 h2
    · exact absurd h1 hnn
    · exact absurd h2 hw
    · rfl

/-- C4 witness: containing width 100, width:auto, margin-left:10px gives
content width 90 and margin-right 0. -/
theorem c4_underflow_nonneg_witness :
    calculate_block_width c4Style (viewport 100) =
      ⟨.length 90 .px, .length 10 .px, .length 0 .px, .length 0 .px,
       .length 0 .px, .length 0 .px, .length 0 .px⟩ :=
  ((c4_underflow_nonneg c4Style (viewport 100)
      (by with_unfolding_all decide)).1 (by with_unfolding_all decide)).trans
    (by with_unfolding_all decide)

/-! ### C1: over-constrained width absorption -/

/-- On a nonnegative pixel quantity and a nonpositive underflow,
`consume_underflow` performs exactly one spec-side absorption step
(with the deficit sign-flipped). -/
theorem consume_underflow_eq_absorbStep (q u : ℚ) (hq : 0 ≤ q) (hu : u ≤ 0) :
    consume_underflow u (.length q .px) =
      (-(absorbStep q (-u)).2, .length (absorbStep q (-u)).1 .px) := by
  unfold consume_underflow absorbStep Value.to_px
  rcases le_or_lt (q + u) 0 with h | h
  · have hmin : min q (-u) = q := min_eq_left (by linarith)
    rw [if_neg (not_lt.mpr h), hmin]
    simp only [Prod.mk.injEq, Value.length.injEq]
    exact ⟨by ring, by ring, trivial⟩
  · have hmin : min q (-u) = -u := min_eq_right (by linarith)
    rw [if_pos h, hmin]
    simp only [Prod.mk.injEq, Value.length.injEq]
    exact ⟨by ring, by ring, trivial⟩

/-- The remaining deficit of an absorption step stays nonnegative. -/
theorem absorbStep_remainder_nonneg (q r : ℚ) (hr : 0 ≤ r) :
    0 ≤ (absorbStep q r).2 := by
  unfold absorbStep
  exact sub_nonneg.mpr (min_le_right q r)

/-- The seven-step `consume_underflow` chain of the over-constrained
branch equals the spec-side absorption of the deficit `D = -u`. -/
theorem consume_chain_seven (u D mr br pr pl bl ml w : ℚ) (hD : D = -u)
    (hu : u ≤ 0) (h1 : 0 ≤ mr) (h2 : 0 ≤ br) (h3 : 0 ≤ pr) (h4 : 0 ≤ pl)
    (h5 : 0 ≤ bl) (h6 : 0 ≤ ml) (h7 : 0 ≤ w) :
    (let s1 := consume_underflow u (.length mr .px)
     let s2 := consume_underflow s1.1 (.length br .px)
     let s3 := consume_underflow s2.1 (.length pr .px)
     let s4 := consume_underflow s3.1 (.length pl .px)
     let s5 := consume_underflow s4.1 (.length bl .px)
     let s6 := consume_underflow s5.1 (.length ml .px)
     let s7 := consume_underflow s6.1 (.length w .px)
     (⟨s7.2, s6.2, s1.2, s5.2, s2.2, s4.2, s3.2⟩ : WidthsResult)) =
    (let a := absorbSevenSpec D mr br pr pl bl ml w
     ⟨.length a.2.2.2.2.2.2 .px, .length a.2.2.2.2.2.1 .px, .length a.1 .px,
      .length a.2.2.2.2.1 .px, .length a.2.1 .px, .length a.2.2.2.1 .px,
      .length a.2.2.1 .px⟩) := by
  subst hD
  have e1 := consume_underflow_eq_absorbStep mr u h1 hu
  have n1 : 0 ≤ (absorbStep mr (-u)).2 :=
    absorbStep_remainder_nonneg _ _ (by linarith)
  have e2 := consume_underflow_eq_absorbStep br (-(absorbStep mr (-u)).2) h2
    (by linarith)
  rw [neg_neg] at e2
  have n2 : 0 ≤ (absorbStep br (absorbStep mr (-u)).2).2 :=
    absorbStep_remainder_nonneg _ _ n1
  have e3 := consume_underflow_eq_absorbStep pr
    (-(absorbStep br (absorbStep mr (-u)).2).2) h3 (by linarith)
  rw [neg_neg] at e3
  have n3 : 0 ≤ (absorbStep pr (absorbStep br (absorbStep mr (-u)).2).2).2 :=
    absorbStep_remainder_nonneg _ _ n2
  have e4 := consume_underflow_eq_absorbStep pl
    (-(absorbStep pr (absorbStep br (absorbStep mr (-u)).2).2).2) h4 (by linarith)
  rw [neg_neg] at e4
  have n4 : 0 ≤ (absorbStep pl
      (absorbStep pr (absorbStep br (absorbStep mr (-u)).2).2).2).2 :=
    absorbStep_remainder_nonneg _ _ n3
  have e5 := consume_underflow_eq_absorbStep bl
    (-(absorbStep pl (absorbStep pr (absorbStep br (absorbStep mr (-u)).2).2).2).2)
    h5 (by linarith)
  rw [neg_neg] at e5
  have n5 : 0 ≤ (absorbStep bl (absorbStep pl
      (absorbStep pr (absorbStep br (absorbStep mr (-u)).2).2).2).2).2 :=
    absorbStep_remainder_nonneg _ _ n4
  have e6 := consume_underflow_eq_absorbStep ml
    (-(absorbStep bl (absorbStep pl
      (absorbStep pr (absorbStep br (absorbStep mr (-u)).2).2).2).2).2) h6
    (by linarith)
  rw [neg_neg] at e6
  have n6 : 0 ≤ (absorbStep ml (absorbStep bl (absorbStep pl
      (absorbStep pr (absorbStep br (absorbStep mr (-u)).2).2).2).2).2).2 :=
    absorbStep_remainder_nonneg _ _ n5
  have e7 := consume_underflow_eq_absorbStep w
    (-(absorbStep ml (absorbStep bl (absorbStep pl
      (absorbStep pr (absorbStep br (absorbStep mr (-u)).2).2).2).2).2).2) h7
    (by linarith)
  rw [neg_neg] at e7
  simp only [absorbSevenSpec, e1, e2, e3, e4, e5, e6, e7]

/-- C1: when the seven nonnegative width quantities exceed the containing
width, `calculate_block_width` materializes all seven to pixels and
resolves them to exactly the values obtained by absorbing the deficit in
the order margin-right, border-right, padding-right, padding-left,
border-left, margin-left, width, each quantity consuming as much of the
deficit as possible without going below 0 and passing the remainder on. -/
theorem c1_overconstrained_absorption (style : StyledNode) (cb : Dimensions)
    (hneg : cb.content.width < requestedTotal style)
    (hmr : 0 ≤ (edgeValue style "margin-right" "margin").to_px)
    (hbr : 0 ≤ (edgeValue style "border-right-width" "border-width").to_px)
    (hpr : 0 ≤ (edgeValue style "padding-right" "padding").to_px)
    (hpl : 0 ≤ (edgeValue style "padding-left" "padding").to_px)
    (hbl : 0 ≤ (edgeValue style "border-left-width" "border-width").to_px)
    (hml : 0 ≤ (edgeValue style "margin-left" "margin").to_px)
    (hw : 0 ≤ (specifiedWidth style).to_px) :
    calculate_block_width style cb =
      (let a := absorbSevenSpec (requestedTotal style - cb.content.width)
        (edgeValue style "margin-right" "margin").to_px
        (edgeValue style "border-right-width" "border-width").to_px
        (edgeValue style "padding-right" "padding").to_px
        (edgeValue style "padding-left" "padding").to_px
        (edgeValue style "border-left-width" "border-width").to_px
        (edgeValue style "margin-left" "margin").to_px
        (specifiedWidth style).to_px
       ⟨.length a.2.2.2.2.2.2 .px, .length a.2.2.2.2.2.1 .px, .length a.1 .px,
        .length a.2.2.2.2.1 .px, .length a.2.1 .px, .length a.2.2.2.1 .px,
        .length a.2.2.1 .px⟩) := by
  have hu : cb.content.width - requestedTotal style ≤ 0 := by linarith
  simp only [calculate_block_width]
  split_ifs with h1 h2
  case pos =>
    refine consume_chain_seven _ _ _ _ _ _ _ _ _ ?_ hu hmr hbr hpr hpl hbl hml hw
    show requestedTotal style - cb.content.width
      = -(cb.content.width - requestedTotal style)
    ring
  all_goals
    have h1' : ¬ (cb.content.width - requestedTotal style < 0) := h1
    exact absurd (by linarith) h1' 

/-- C1 witness: containing width 50, width:60px, margin-left:20px (deficit
30) resolves to content width 50 and every edge quantity 0 — margin-left
is zeroed first, the rest of the deficit comes out of width. -/
theorem c1_overconstrained_absorption_witness :
    calculate_block_width c1Style (viewport 50) =
      ⟨.length 50 .px, .length 0 .px, .length 0 .px, .length 0 .px,
       .length 0 .px, .length 0 .px, .length 0 .px⟩ :=
  (c1_overconstrained_absorption c1Style (viewport 50)
    (by with_unfolding_all decide) (by with_unfolding_all decide)
    (by with_unfolding_all decide) (by with_unfolding_all decide)
    (by with_unfolding_all decide) (by with_unfolding_all decide)
    (by with_unfolding_all decide) (by with_unfolding_all decide)).trans
    (by with_unfolding_all decide)

/-! ### C6: selector matching -/

/-- C6 (amended): a simple selector matches exactly when the specified
tag name equals the element's tag, the specified id equals the element's
id attribute, and every selector class token is present in the element's
class attribute tokenized on the space character (the source splits on
`' '` only, not on general whitespace); a selector specifying none of the
three matches every element. -/
theorem c6_selector_matching :
    (∀ (elem : ElementData) (sel : SimpleSelector),
      match_simple_selector elem sel = true ↔
        (∀ t ∈ sel.tag_name, elem.tag_name = t) ∧
        (∀ i ∈ sel.id, elem.id = some i) ∧
        (∀ c ∈ sel.cls, c ∈ elem.classes)) ∧
    (∀ elem : ElementData,
      match_simple_selector elem ⟨Option.none, Option.none, []⟩ = true) := by
  constructor
  · intro elem sel
    obtain ⟨tn, ido, cl⟩ := sel
    simp only [match_simple_selector]
    cases tn <;> cases ido <;>
      simp [Option.any, bne_iff_ne, List.any_eq_true, Option.mem_def,
        List.elem_iff]
  · intro elem
    simp [match_simple_selector, Option.any]

theorem c6_selector_matching_witness :
    (∀ t ∈ (some "p" : Option String), c6Elem2.tag_name = t) ∧
    (∀ i ∈ (some "i" : Option String), c6Elem2.id = some i) ∧
    (∀ c ∈ ["a", "b"], c ∈ c6Elem2.classes) :=
  (c6_selector_matching.1 c6Elem2 ⟨some "p", some "i", ["a", "b"]⟩).mp
    (by with_unfolding_all decide)

/-- C6 (counterexample to "whitespace-tokenized" as stated): for a class
attribute "a\tb" (tab-separated) and a selector requiring class "a", the
code does not match — it tokenizes on the space character only — while
whitespace tokenization contains the token "a". -/
theorem c6_whitespace_counterexample :
    ¬ (match_simple_selector c6Elem c6Sel = true ↔
        (∀ t ∈ c6Sel.tag_name, c6Elem.tag_name = t) ∧
        (∀ i ∈ c6Sel.id, c6Elem.id = some i) ∧
        (∀ c ∈ c6Sel.cls, c ∈ classesWhitespace c6Elem)) := by
  intro h
  have hc : match_simple_selector c6Elem c6Sel = true :=
    h.mpr ⟨by simp [c6Sel], by simp [c6Sel], by with_unfolding_all decide⟩
  have hm : match_simple_selector c6Elem c6Sel = false := by
    with_unfolding_all decide
  rw [hm] at hc
  exact Bool.false_ne_true hc

/-! ### C3: cascade ordering -/

/-- Looking up a property after applying a declaration list: the last
declaration of that property wins; absent that, the previous map value. -/
theorem applyDeclarations_apply (p : String) :
    ∀ (ds : List Declaration) (m : PropertyMap),
      applyDeclarations m ds p =
        match lastDeclValue p ds with
        | some v => some v
        | none => m p := by
  intro ds
  induction ds with
  | nil => intro m; rfl
  | cons d rest ih =>
    intro m
    simp only [applyDeclarations, lastDeclValue, ih]
    cases hrest : lastDeclValue p rest with
    | some v => rfl
    | none =>
      by_cases hp : d.name = p
      · rw [if_pos hp.symm, if_pos hp]
      · rw [if_neg (fun h => hp h.symm), if_neg hp]

/-- Sorting a two-element matched-rule list: stable ascending order by
specificity (the later element stays second exactly when the first is
not greater). -/
theorem sortStable_pair (x1 x2 : Specificity × Rule) :
    sortStable (fun x y => specificityCmp x.1 y.1) [x1, x2] =
      if specificityCmp x1.1 x2.1 ≠ Ordering.gt then [x1, x2] else [x2, x1] := by
  simp only [sortStable, List.foldl, insertStable]

/-- C3: for two matching rules that both declare property `p` (with last
declared values `v1`, `v2`), the cascade applies declarations in
ascending specificity into the map, so the later source rule wins exactly
when its matched specificity is not lower; otherwise the earlier,
higher-specificity rule wins — i.e. higher specificity beats source
order, and equal specificity resolves to the later-declared rule. -/
theorem c3_cascade (elem : ElementData) (sheet : Stylesheet)
    (s1 s2 : Specificity) (r1 r2 : Rule) (p : String) (v1 v2 : Value)
    (hmatch : matching_rules elem sheet = [(s1, r1), (s2, r2)])
    (h1 : lastDeclValue p r1.declarations = some v1)
    (h2 : lastDeclValue p r2.declarations = some v2) :
    specified_values elem sheet p =
      some (if specificityCmp s1 s2 ≠ Ordering.gt then v2 else v1) := by
  simp only [specified_values, hmatch, sortStable_pair]
  by_cases hc : specificityCmp s1 s2 ≠ Ordering.gt
  · rw [if_pos hc, if_pos hc]
    simp only [List.foldl]
    rw [applyDeclarations_apply, h2]
  · rw [if_neg hc, if_neg hc]
    simp only [List.foldl]
    rw [applyDeclarations_apply, h1]

/-- C3 witness: the class rule (specificity (0,1,0)) declared FIRST in
source order beats the later tag rule (specificity (0,0,1)): the
resolved "color" is the class rule's blue. -/
theorem c3_cascade_witness :
    specified_values c3Elem c3Sheet "color" = some (.keyword "blue") :=
  (c3_cascade c3Elem c3Sheet (0, 1, 0) (0, 0, 1) c3RuleHigh c3RuleLow "color"
    (.keyword "blue") (.keyword "red") (by with_unfolding_all decide)
    (by with_unfolding_all decide) (by with_unfolding_all decide)).trans
    (by with_unfolding_all decide)

/-! ### C9: display-list construction -/

/-- One box's three render steps append exactly the spec-side per-box
command list (text, then background, then the four borders). -/
theorem render_box_eq (list : DisplayList) (b : LayoutBox) :
    render_border (render_background (render_text list b) b) b =
      list ++ boxCommandsSpec b := by
  obtain ⟨d, bt, cs⟩ := b
  simp only [render_text, render_background, render_border, boxCommandsSpec,
    LayoutBox.box_type_mk, LayoutBox.dimensions_mk]
  cases bt with
  | anonymousBlock =>
    simp [get_color, LayoutBox.box_type_mk]
  | blockNode s =>
    cases hnd : s.node.data <;>
      cases hbg : get_color (.mk d (.blockNode s) cs) "background" <;>
        cases hbc : get_color (.mk d (.blockNode s) cs) "border-color" <;>
          simp [hnd, hbg, hbc]
  | inlineNode s =>
    cases hnd : s.node.data <;>
      cases hbg : get_color (.mk d (.inlineNode s) cs) "background" <;>
        cases hbc : get_color (.mk d (.inlineNode s) cs) "border-color" <;>
          simp [hnd, hbg, hbc]

/-- C9: building the display list is the pre-order traversal the claim
describes — for every starting list, `render_layout_box_tree` appends
each box's own commands (text, background, the four border edges in the
order left, right, top, bottom) and then its children's lists in order;
AnonymousBlock boxes contribute no commands of their own, so a box's
background always precedes all commands of its descendants. -/
theorem c9_display_list_preorder :
    (∀ (list : DisplayList) (b : LayoutBox),
      render_layout_box_tree list b = list ++ displayListSpec b) ∧
    (∀ (d : Dimensions) (cs : List LayoutBox),
      boxCommandsSpec (.mk d .anonymousBlock cs) = []) := by
  constructor
  · have key := @layoutBox_mutual_ind
      (fun b => ∀ list,
        render_layout_box_tree list b = list ++ displayListSpec b)
      (fun cs => ∀ list,
        render_children_loop list cs = list ++ displayListSpecChildren cs)
      (fun d bt cs ih list => by
        simp only [render_layout_box_tree, displayListSpec]
        rw [ih, render_box_eq, List.append_assoc])
      (fun list => by
        simp only [render_children_loop, displayListSpecChildren,
          List.append_nil])
      (fun c rest ihc ihrest list => by
        simp only [render_children_loop, displayListSpecChildren]
        rw [ihrest, ihc, List.append_assoc])
    exact fun list b => key.1 b list
  · intro d cs
    simp [boxCommandsSpec, get_color]

/-! ### C8: block height resolution -/

/-- `layout_block_children` changes only the content height, adding
exactly the sum of the laid-out children's margin-box heights. -/
theorem block_children_loop_dims :
    ∀ (cs : List LayoutBox) (d : Dimensions),
      (block_children_loop d cs).1 =
        { d with content := { d.content with
            height := d.content.height +
              marginHeightSum (block_children_loop d cs).2 } } := by
  intro cs
  induction cs with
  | nil =>
    intro d
    simp [block_children_loop, marginHeightSum]
  | cons c rest ih =>
    intro d
    simp only [block_children_loop, marginHeightSum, List.map_cons, List.sum_cons]
    rw [ih]
    simp only [marginHeightSum]
    congr 1
    ring

/-- `calculate_block_position` never touches the content height. -/
theorem calculate_block_position_content_height (style : StyledNode)
    (d cb : Dimensions) :
    (calculate_block_position style d cb).content.height = d.content.height := rfl

/-- Without an explicit pixel height, `calculate_block_height` is the
identity. -/
theorem calculate_block_height_of_no_length (style : StyledNode) (d : Dimensions)
    (h : match style.value "height" with
         | some (.length _ .px) => False
         | _ => True) :
    calculate_block_height style d = d := by
  unfold calculate_block_height
  cases hv : style.value "height" with
  | none => rfl
  | some v =>
    cases v with
    | keyword _ => rfl
    | color _ => rfl
    | length q u =>
      cases u
      rw [hv] at h
      exact h.elim

/-- C8: a block box's resolved content height is its accumulated start
height plus the sum of its laid-out children's margin-box heights
(simple vertical stacking), unless the "height" property resolves to an
explicit pixel length, which overrides the accumulated value. -/
theorem c8_block_height (d : Dimensions) (style : StyledNode)
    (cs : List LayoutBox) (cb : Dimensions) (hd : d.content.height = 0) :
    (∀ h : ℚ, style.value "height" = some (.length h .px) →
      (layout (.mk d (.blockNode style) cs) cb).dimensions.content.height = h) ∧
    ((match style.value "height" with
      | some (.length _ .px) => False
      | _ => True) →
      (layout (.mk d (.blockNode style) cs) cb).dimensions.content.height =
        marginHeightSum (layout (.mk d (.blockNode style) cs) cb).children) := by
  constructor
  · intro h hh
    simp only [layout, calculate_block_height, hh, LayoutBox.dimensions_mk]
  · intro hnl
    simp only [layout, LayoutBox.dimensions_mk, LayoutBox.children_mk]
    rw [calculate_block_height_of_no_length style _ hnl]
    rw [block_children_loop_dims]
    simp only [calculate_block_position_content_height]
    simp [hd]

/-- C8 witness: children with margin-box heights 20 and 30 stack to
content height 50 when the parent has no explicit height, while
height:15px overrides to 15. -/
theorem c8_block_height_witness :
    (layout (.mk default (.blockNode c8ParentA) [c8BoxA, c8BoxB])
      (viewport 100)).dimensions.content.height = 50 ∧
    (layout (.mk default (.blockNode c8ParentB) [c8BoxA, c8BoxB])
      (viewport 100)).dimensions.content.height = 15 :=
  ⟨((c8_block_height default c8ParentA [c8BoxA, c8BoxB] (viewport 100) rfl).2
      (by with_unfolding_all trivial)).trans (by with_unfolding_all decide),
   (c8_block_height default c8ParentB [c8BoxA, c8BoxB] (viewport 100) rfl).1 15
      (by with_unfolding_all decide)⟩

/-! ### C10: viewport-height noninterference -/

/-- `children.push` keeps the box type. -/
theorem pushChild_box_type (root cb : LayoutBox) :
    (root.pushChild cb).box_type = root.box_type := rfl

/-- Pushing through the inline container keeps the box type. -/
theorem push_to_inline_container_box_type (root cb : LayoutBox) :
    (root.push_to_inline_container cb).box_type = root.box_type := by
  obtain ⟨d, bt, cs⟩ := root
  unfold LayoutBox.push_to_inline_container
  cases bt with
  | inlineNode s => rfl
  | anonymousBlock => rfl
  | blockNode s =>
    simp only [LayoutBox.box_type_mk, LayoutBox.children_mk]
    cases hl : cs.getLast? with
    | none => rfl
    | some last =>
      obtain ⟨dl, btl, csl⟩ := last
      cases btl <;> rfl

/-- The child loop of `make_layout_tree` never changes the root's box
type. -/
theorem make_children_box_type :
    ∀ (cs : List StyledNode) (root b : LayoutBox),
      make_children root cs = some b → b.box_type = root.box_type := by
  intro cs
  induction cs with
  | nil =>
    intro root b h
    simp only [make_children] at h
    rw [← Option.some.inj h]
  | cons c rest ih =>
    intro root b h
    simp only [make_children] at h
    cases hd : c.display with
    | none => rw [hd] at h; exact ih root b h
    | block =>
      rw [hd] at h
      cases hmk : make_layout_tree c with
      | none => rw [hmk] at h; cases h
      | some cb =>
        rw [hmk] at h
        rw [ih (root.pushChild cb) b h, pushChild_box_type]
    | inline =>
      rw [hd] at h
      cases hmk : make_layout_tree c with
      | none => rw [hmk] at h; cases h
      | some cb =>
        rw [hmk] at h
        rw [ih (root.push_to_inline_container cb) b h,
          push_to_inline_container_box_type]

/-- A successfully built root layout box is a Block or Inline box over
the root styled node. -/
theorem make_layout_tree_root_type (n : StyledNode) (b : LayoutBox)
    (h : make_layout_tree n = some b) :
    b.box_type = .blockNode n ∨ b.box_type = .inlineNode n := by
  obtain ⟨nd, m, cs⟩ := n
  simp only [make_layout_tree] at h
  cases hd : (StyledNode.mk nd m cs).display with
  | none => rw [hd] at h; cases h
  | block =>
    rw [hd] at h
    exact Or.inl (make_children_box_type cs _ b h)
  | inline =>
    rw [hd] at h
    exact Or.inr (make_children_box_type cs _ b h)

/-- `calculate_block_height` only ever touches the content height. -/
theorem calculate_block_height_preserves (style : StyledNode) (d : Dimensions) :
    (calculate_block_height style d).content.y = d.content.y ∧
    (calculate_block_height style d).margin = d.margin ∧
    (calculate_block_height style d).border = d.border ∧
    (calculate_block_height style d).padding = d.padding := by
  unfold calculate_block_height
  cases hv : style.value "height" with
  | none => exact ⟨rfl, rfl, rfl, rfl⟩
  | some v =>
    cases v with
    | keyword _ => exact ⟨rfl, rfl, rfl, rfl⟩
    | color _ => exact ⟨rfl, rfl, rfl, rfl⟩
    | length q u => cases u; exact ⟨rfl, rfl, rfl, rfl⟩

/-- The block position formula: content.y is the containing block's
accumulated height plus its y plus the box's own resolved top margin,
border and padding. -/
theorem calculate_block_position_y (style : StyledNode) (d cb : Dimensions) :
    (calculate_block_position style d cb).content.y =
      cb.content.height + cb.content.y
        + (calculate_block_position style d cb).margin.top
        + (calculate_block_position style d cb).border.top
        + (calculate_block_position style d cb).padding.top := rfl

/-- The inline position formula: identical to the block one. -/
theorem calculate_inline_position_y (style : StyledNode) (d cb : Dimensions) :
    (calculate_inline_position style d cb).content.y =
      cb.content.height + cb.content.y
        + (calculate_inline_position style d cb).margin.top
        + (calculate_inline_position style d cb).border.top
        + (calculate_inline_position style d cb).padding.top := rfl

/-- `layout_inline_children` only changes the content width and height. -/
theorem inline_children_loop_preserves :
    ∀ (cs : List LayoutBox) (d : Dimensions),
      (inline_children_loop d cs).1.content.x = d.content.x ∧
      (inline_children_loop d cs).1.content.y = d.content.y ∧
      (inline_children_loop d cs).1.margin = d.margin ∧
      (inline_children_loop d cs).1.border = d.border ∧
      (inline_children_loop d cs).1.padding = d.padding := by
  intro cs
  induction cs with
  | nil => intro d; exact ⟨rfl, rfl, rfl, rfl, rfl⟩
  | cons c rest ih =>
    intro d
    simp only [inline_children_loop]
    exact ih _

/-- The y-coordinate of a laid-out block box follows the position
formula relative to its containing block. -/
theorem layout_block_y (d : Dimensions) (n : StyledNode) (cs : List LayoutBox)
    (cb : Dimensions) :
    (layout (.mk d (.blockNode n) cs) cb).dimensions.content.y =
      cb.content.height + cb.content.y
        + (layout (.mk d (.blockNode n) cs) cb).dimensions.margin.top
        + (layout (.mk d (.blockNode n) cs) cb).dimensions.border.top
        + (layout (.mk d (.blockNode n) cs) cb).dimensions.padding.top := by
  simp only [layout, LayoutBox.dimensions_mk]
  rw [(calculate_block_height_preserves n _).1,
    (calculate_block_height_preserves n _).2.1,
    (calculate_block_height_preserves n _).2.2.1,
    (calculate_block_height_preserves n _).2.2.2,
    block_children_loop_dims]
  exact calculate_block_position_y n _ cb

/-- The y-coordinate of a laid-out inline box follows the same position
formula. -/
theorem layout_inline_y (d : Dimensions) (n : StyledNode) (cs : List LayoutBox)
    (cb : Dimensions) :
    (layout (.mk d (.inlineNode n) cs) cb).dimensions.content.y =
      cb.content.height + cb.content.y
        + (layout (.mk d (.inlineNode n) cs) cb).dimensions.margin.top
        + (layout (.mk d (.inlineNode n) cs) cb).dimensions.border.top
        + (layout (.mk d (.inlineNode n) cs) cb).dimensions.padding.top := by
  simp only [layout, LayoutBox.dimensions_mk]
  cases hnd : n.node.data with
  | element e =>
    simp only [hnd]
    rw [(inline_children_loop_preserves cs _).2.1,
      (inline_children_loop_preserves cs _).2.2.1,
      (inline_children_loop_preserves cs _).2.2.2.1,
      (inline_children_loop_preserves cs _).2.2.2.2]
    exact calculate_inline_position_y n d cb
  | text body =>
    simp only [hnd]
    rw [(inline_children_loop_preserves cs _).2.1,
      (inline_children_loop_preserves cs _).2.2.1,
      (inline_children_loop_preserves cs _).2.2.2.1,
      (inline_children_loop_preserves cs _).2.2.2.2]
    exact calculate_inline_position_y n d cb

/-- C10: `layout_tree` zeroes the containing block's content height
before solving, so two containing blocks differing only in content
height give identical layout trees, and the root's content.y is the
containing block's content.y plus the root's own resolved top margin,
border and padding. -/
theorem c10_viewport_height_noninterference :
    (∀ (n : StyledNode) (cb : Dimensions) (h : ℚ),
      layout_tree n { cb with content := { cb.content with height := h } } =
        layout_tree n cb) ∧
    (∀ (n : StyledNode) (cb : Dimensions) (b : LayoutBox),
      layout_tree n cb = some b →
        b.dimensions.content.y = cb.content.y + b.dimensions.margin.top
          + b.dimensions.border.top + b.dimensions.padding.top) := by
  constructor
  · intro n cb h
    rfl
  · intro n cb b hb
    unfold layout_tree at hb
    cases hmk : make_layout_tree n with
    | none => rw [hmk] at hb; cases hb
    | some root =>
      rw [hmk] at hb
      have hb' := Option.some.inj hb
      subst hb'
      obtain ⟨d, bt, cs⟩ := root
      rcases make_layout_tree_root_type n _ hmk with hbt | hbt <;>
        simp only [LayoutBox.box_type_mk] at hbt <;> subst hbt
      · rw [layout_block_y]
        norm_num
      · rw [layout_inline_y]
        norm_num

theorem c10_viewport_height_noninterference_witness :
    c10Root.dimensions.content.y = (viewport 100).content.y
      + c10Root.dimensions.margin.top + c10Root.dimensions.border.top
      + c10Root.dimensions.padding.top :=
  c10_viewport_height_noninterference.2 c10Node (viewport 100) c10Root
    (by with_unfolding_all rfl)

/-! ### C5: anonymous-block wrapping invariant -/

theorem noBareInlineList_append :
    ∀ l1 l2 : List LayoutBox,
      noBareInlineList (l1 ++ l2) = (noBareInlineList l1 && noBareInlineList l2) := by
  intro l1 l2
  induction l1 with
  | nil => simp [noBareInlineList]
  | cons c rest ih => simp [noBareInlineList, ih, Bool.and_assoc]

theorem kind_of_box_type_block (cb : LayoutBox) (s : StyledNode)
    (h : cb.box_type = .blockNode s) : cb.kind = BoxKind.block := by
  obtain ⟨d, bt, cs⟩ := cb
  simp only [LayoutBox.box_type_mk] at h
  subst h
  rfl

/-- A block-displayed child builds a Block box over itself. -/
theorem make_layout_tree_block_type (c : StyledNode) (cb : LayoutBox)
    (hd : c.display = .block) (h : make_layout_tree c = some cb) :
    cb.box_type = .blockNode c := by
  obtain ⟨nd, m, cs⟩ := c
  simp only [make_layout_tree] at h
  rw [hd] at h
  exact make_children_box_type cs _ cb h

/-- Appending a child preserves the wrapping invariant, provided an
inline child is never pushed onto a Block box. -/
theorem noBareInline_pushChild (root cb : LayoutBox)
    (hroot : noBareInline root = true) (hcb : noBareInline cb = true)
    (hk : ∀ s, root.box_type = .blockNode s → cb.kind ≠ BoxKind.inline) :
    noBareInline (root.pushChild cb) = true := by
  obtain ⟨d, bt, cs⟩ := root
  cases bt with
  | blockNode s =>
    have hk' := hk s rfl
    simp only [LayoutBox.pushChild, LayoutBox.dimensions_mk, LayoutBox.box_type_mk,
      LayoutBox.children_mk, noBareInline, Bool.and_eq_true] at hroot ⊢
    obtain ⟨h1, h2⟩ := hroot
    refine ⟨?_, ?_⟩
    · simp [List.all_append, h1, hk']
    · simp [noBareInlineList_append, h2, noBareInlineList, hcb]
  | inlineNode s =>
    simp only [LayoutBox.pushChild, LayoutBox.dimensions_mk, LayoutBox.box_type_mk,
      LayoutBox.children_mk, noBareInline, Bool.true_and] at hroot ⊢
    simp [noBareInlineList_append, hroot, noBareInlineList, hcb]
  | anonymousBlock =>
    simp only [LayoutBox.pushChild, LayoutBox.dimensions_mk, LayoutBox.box_type_mk,
      LayoutBox.children_mk, noBareInline, Bool.true_and] at hroot ⊢
    simp [noBareInlineList_append, hroot, noBareInlineList, hcb]

/-- Pushing a child through the inline container preserves the wrapping
invariant (the child may be inline: on a Block box it lands inside an
AnonymousBlock wrapper). -/
theorem noBareInline_push_to_inline_container (root cb : LayoutBox)
    (hroot : noBareInline root = true) (hcb : noBareInline cb = true) :
    noBareInline (root.push_to_inline_container cb) = true := by
  obtain ⟨d, bt, cs⟩ := root
  cases bt with
  | inlineNode s =>
    exact noBareInline_pushChild _ cb hroot hcb (fun s' h => by cases h)
  | anonymousBlock =>
    exact noBareInline_pushChild _ cb hroot hcb (fun s' h => by cases h)
  | blockNode s =>
    unfold LayoutBox.push_to_inline_container
    simp only [LayoutBox.box_type_mk, LayoutBox.children_mk]
    have hanon : noBareInline (LayoutBox.mk default .anonymousBlock [cb]) = true := by
      simp [noBareInline, noBareInlineList, hcb]
    cases hl : cs.getLast? with
    | none =>
      exact noBareInline_pushChild _ _ hroot hanon
        (fun s' h => by rw [show (LayoutBox.mk default .anonymousBlock [cb]).kind
          = BoxKind.anon from rfl]; intro hx; cases hx)
    | some last =>
      obtain ⟨dl, btl, csl⟩ := last
      cases btl with
      | blockNode s2 =>
        exact noBareInline_pushChild _ _ hroot hanon
          (fun s' h => by rw [show (LayoutBox.mk default .anonymousBlock [cb]).kind
            = BoxKind.anon from rfl]; intro hx; cases hx)
      | inlineNode s2 =>
        exact noBareInline_pushChild _ _ hroot hanon
          (fun s' h => by rw [show (LayoutBox.mk default .anonymousBlock [cb]).kind
            = BoxKind.anon from rfl]; intro hx; cases hx)
      | anonymousBlock =>
        obtain ⟨ys, hcs⟩ := List.getLast?_eq_some_iff.mp hl
        subst hcs
        rw [List.dropLast_concat]
        simp only [noBareInline, Bool.and_eq_true, List.all_append,
          noBareInlineList_append, noBareInlineList, Bool.and_true,
          List.all_cons, List.all_nil] at hroot ⊢
        obtain ⟨⟨hy1, hy2⟩, hy3, hy4, hy5⟩ := hroot
        exact ⟨⟨hy1, rfl⟩, hy3, trivial, hy5, hcb⟩

/-- Every successfully built layout tree satisfies the wrapping
invariant. -/
theorem make_preserves_noBareInline :
    (∀ n : StyledNode, ∀ b, make_layout_tree n = some b →
      noBareInline b = true) ∧
    (∀ cs : List StyledNode, ∀ root b, noBareInline root = true →
      make_children root cs = some b → noBareInline b = true) :=
  @styledNode_mutual_ind
    (fun n => ∀ b, make_layout_tree n = some b →
      noBareInline b = true)
    (fun cs => ∀ root b, noBareInline root = true →
      make_children root cs = some b → noBareInline b = true)
    (fun nd m cs ih => by
      intro b h
      simp only [make_layout_tree] at h
      cases hd : (StyledNode.mk nd m cs).display with
      | none => rw [hd] at h; cases h
      | block => rw [hd] at h; exact ih (LayoutBox.new (.blockNode _)) b rfl h
      | inline => rw [hd] at h; exact ih (LayoutBox.new (.inlineNode _)) b rfl h)
    (fun root b hroot h => by
      simp only [make_children] at h
      exact (Option.some.inj h) ▸ hroot)
    (fun c rest ihc ihrest => by
      intro root b hroot h
      simp only [make_children] at h
      cases hd : c.display with
      | none => rw [hd] at h; exact ihrest root b hroot h
      | block =>
        rw [hd] at h
        cases hmk : make_layout_tree c with
        | none => rw [hmk] at h; cases h
        | some cb =>
          rw [hmk] at h
          have hkind : cb.kind = BoxKind.block :=
            kind_of_box_type_block cb c (make_layout_tree_block_type c cb hd hmk)
          exact ihrest _ b (noBareInline_pushChild root cb hroot (ihc cb hmk)
            (fun s hs => by rw [hkind]; intro hx; cases hx)) h
      | inline =>
        rw [hd] at h
        cases hmk : make_layout_tree c with
        | none => rw [hmk] at h; cases h
        | some cb =>
          rw [hmk] at h
          exact ihrest _ b (noBareInline_push_to_inline_container root cb hroot
            (ihc cb hmk)) h)

/-- `all` over box kinds can be read off the kind list. -/
theorem all_kind_eq (l : List LayoutBox) :
    l.all (fun c => !(c.kind = BoxKind.inline)) =
      (l.map LayoutBox.kind).all (fun k => !(k = BoxKind.inline)) := by
  induction l with
  | nil => rfl
  | cons c rest ih => simp only [List.all_cons, List.map_cons, ih]

/-- The geometry solve never changes any box's kind or the wrapping
invariant. -/
theorem layout_preserves_noBareInline :
    (∀ b : LayoutBox, ∀ cb, (layout b cb).kind = b.kind ∧
      noBareInline (layout b cb) = noBareInline b) ∧
    (∀ cs : List LayoutBox, ∀ d cb,
      ((block_children_loop d cs).2.map LayoutBox.kind = cs.map LayoutBox.kind ∧
        noBareInlineList (block_children_loop d cs).2 = noBareInlineList cs) ∧
      ((inline_children_loop d cs).2.map LayoutBox.kind = cs.map LayoutBox.kind ∧
        noBareInlineList (inline_children_loop d cs).2 = noBareInlineList cs) ∧
      ((anonymous_children_loop d cs cb).2.map LayoutBox.kind
          = cs.map LayoutBox.kind ∧
        noBareInlineList (anonymous_children_loop d cs cb).2
          = noBareInlineList cs)) :=
  @layoutBox_mutual_ind
    (fun b => ∀ cb, (layout b cb).kind = b.kind ∧
      noBareInline (layout b cb) = noBareInline b)
    (fun cs => ∀ d cb,
      ((block_children_loop d cs).2.map LayoutBox.kind = cs.map LayoutBox.kind ∧
        noBareInlineList (block_children_loop d cs).2 = noBareInlineList cs) ∧
      ((inline_children_loop d cs).2.map LayoutBox.kind = cs.map LayoutBox.kind ∧
        noBareInlineList (inline_children_loop d cs).2 = noBareInlineList cs) ∧
      ((anonymous_children_loop d cs cb).2.map LayoutBox.kind
          = cs.map LayoutBox.kind ∧
        noBareInlineList (anonymous_children_loop d cs cb).2
          = noBareInlineList cs))
    (fun d bt cs ih => by
      intro cb
      cases bt with
      | blockNode n =>
        constructor
        · rfl
        · simp only [layout, noBareInline]
          rw [all_kind_eq, all_kind_eq, (ih _ cb).1.1, (ih _ cb).1.2]
      | inlineNode n =>
        constructor
        · rfl
        · simp only [layout, noBareInline]
          rw [(ih _ cb).2.1.2]
      | anonymousBlock =>
        constructor
        · rfl
        · simp only [layout, noBareInline]
          rw [(ih _ cb).2.2.2])
    (fun d cb => ⟨⟨rfl, rfl⟩, ⟨rfl, rfl⟩, rfl, rfl⟩)
    (fun c rest ihc ihrest => by
      intro d cb
      refine ⟨?_, ?_, ?_⟩
      · simp only [block_children_loop, List.map_cons, noBareInlineList]
        exact ⟨by rw [(ihc d).1, ((ihrest _ cb).1).1],
          by rw [(ihc d).2, ((ihrest _ cb).1).2]⟩
      · simp only [inline_children_loop, List.map_cons, noBareInlineList]
        exact ⟨by rw [(ihc d).1, ((ihrest _ cb).2.1).1],
          by rw [(ihc d).2, ((ihrest _ cb).2.1).2]⟩
      · simp only [anonymous_children_loop, List.map_cons, noBareInlineList]
        exact ⟨by rw [(ihc cb).1, ((ihrest _ cb).2.2).1],
          by rw [(ihc cb).2, ((ihrest _ cb).2.2).2]⟩)

/-- C5: every layout tree satisfies the anonymous-block wrapping
invariant — no Block box ever has a bare Inline child — and the
inline/block/inline example produces exactly the child kinds
AnonymousBlock, Block, AnonymousBlock (two wrappers, not one). -/
theorem c5_anonymous_wrapping :
    (∀ (n : StyledNode) (cb : Dimensions) (b : LayoutBox),
      layout_tree n cb = some b → noBareInline b = true) ∧
    (layout_tree c5Parent (viewport 200)).map LayoutBox.childKinds =
      some [BoxKind.anon, BoxKind.block, BoxKind.anon] := by
  constructor
  · intro n cb b hb
    unfold layout_tree at hb
    cases hmk : make_layout_tree n with
    | none => rw [hmk] at hb; cases hb
    | some root =>
      rw [hmk] at hb
      have hb' := Option.some.inj hb
      subst hb'
      rw [(layout_preserves_noBareInline.1 root _).2]
      exact make_preserves_noBareInline.1 n root hmk
  · with_unfolding_all decide

theorem c5_anonymous_wrapping_witness : noBareInline c5Root = true :=
  c5_anonymous_wrapping.1 c5Parent (viewport 200) c5Root
    (by with_unfolding_all rfl)

end Browser
